import Mathlib

/-!
Shallow embedding of the ImageScaler application (`scaler.py`): the
`ResizeWorker` background task, the `ImageScaler` controller state and its
UI actions, and an event-level semantics of worker supersession and
queued signal delivery.  Machine floats of the source are modelled as
rationals; Python `int(...)` truncation is modelled explicitly.
-/

namespace ImageScalerModel

/-- Python `int(x)` applied to a number: truncation toward zero. -/
def pyInt (q : ℚ) : ℤ := if 0 ≤ q then ⌊q⌋ else ⌈q⌉

/-- The four interpolation methods offered by the combo box
(`Image.NEAREST`, `Image.BILINEAR`, `Image.BICUBIC`, `Image.LANCZOS`). -/
inductive InterpMethod
  | nearest
  | bilinear
  | bicubic
  | lanczos
deriving DecidableEq, Repr

/-- Index of a method in the `methods` dictionary of `start_interpolation`. -/
def InterpMethod.index : InterpMethod → Nat
  | .nearest => 0
  | .bilinear => 1
  | .bicubic => 2
  | .lanczos => 3

/-- `methods.get(idx, Image.BICUBIC)` from `start_interpolation`. -/
def methodsGet (idx : Nat) : InterpMethod :=
  match idx with
  | 0 => .nearest
  | 1 => .bilinear
  | 2 => .bicubic
  | 3 => .lanczos
  | _ => .bicubic

/-- A PIL image: dimensions plus an opaque content tag standing for the
pixel buffer (the codec and pixel math are external to this core). -/
structure PILImage where
  width : Nat
  height : Nat
  data : Nat
deriving DecidableEq, Repr

/-- `pil_image.resize((w, h), method)`: external PIL call, modelled as an
opaque deterministic function whose result has exactly the requested
dimensions and whose content is determined by the inputs. -/
def pilResize (img : PILImage) (w h : Nat) (m : InterpMethod) : PILImage :=
  ⟨w, h, Nat.pair img.data (Nat.pair w (Nat.pair h m.index))⟩

/-- The background thread object: `ResizeWorker.__init__` stores the
original PIL image, the scale factor and the interpolation method.
The class has no cancellation flag field. -/
structure ResizeWorker where
  pil_image : PILImage
  scale : ℚ
  interp_method : InterpMethod
deriving DecidableEq, Repr

namespace ResizeWorker

/-- `width = max(1, int(self.pil_image.width * self.scale))` from `run`. -/
def targetWidth (w : ResizeWorker) : Nat :=
  max 1 (pyInt ((w.pil_image.width : ℚ) * w.scale)).toNat

/-- `height = max(1, int(self.pil_image.height * self.scale))` from `run`. -/
def targetHeight (w : ResizeWorker) : Nat :=
  max 1 (pyInt ((w.pil_image.height : ℚ) * w.scale)).toNat

/-- `sleep_time = max(5, int(base_sleep * self.scale))` with `base_sleep = 5`. -/
def sleepTime (w : ResizeWorker) : Nat :=
  max 5 (pyInt (5 * w.scale)).toNat

/-- The image produced by the final `self.pil_image.resize((width, height),
self.interp_method)` call of `run`. -/
def output (w : ResizeWorker) : PILImage :=
  pilResize w.pil_image w.targetWidth w.targetHeight w.interp_method

end ResizeWorker

/-- One observable action of the worker thread: a `msleep` call, a
`progress_changed.emit` with a percentage, or the `finished.emit` carrying
the resized image. -/
inductive WorkerEvent
  | msleep (ms : Nat)
  | progress (percent : ℤ)
  | finish (img : PILImage)
deriving DecidableEq, Repr

namespace ResizeWorker

/-- The trace of `ResizeWorker.run`: ten iterations of
`self.msleep(sleep_time); self.progress_changed.emit(int((i+1)/steps*100))`
followed by the single resize computation and `self.finished.emit(resized)`. -/
def run (w : ResizeWorker) : List WorkerEvent :=
  ((List.range 10).flatMap fun i =>
    [WorkerEvent.msleep w.sleepTime,
     WorkerEvent.progress (pyInt (((i : ℚ) + 1) / 10 * 100))])
  ++ [WorkerEvent.finish w.output]

/-- The body of `run` contains no read of any cancellation flag (the class
has none), so the trace a worker produces, when its thread is not forcibly
terminated, does not depend on when a cancellation was requested.  The
argument records the tick index at which a (hypothetical) cooperative
cancel request would have been visible. -/
def runWithCancelRequest (w : ResizeWorker) (cancelAtTick : Nat) : List WorkerEvent :=
  let _ := cancelAtTick
  w.run

end ResizeWorker

-- Sanity checks of the worker model on concrete inputs.
example : ResizeWorker.targetWidth ⟨⟨2, 2, 0⟩, 3/4, .bicubic⟩ = 1 := by
  norm_num [ResizeWorker.targetWidth, pyInt] <;> decide
example : ResizeWorker.targetWidth ⟨⟨100, 100, 0⟩, 1/4, .bicubic⟩ = 25 := by
  norm_num [ResizeWorker.targetWidth, pyInt] <;> decide
example : ResizeWorker.targetWidth ⟨⟨1, 1, 0⟩, 1/20, .bicubic⟩ = 1 := by
  norm_num [ResizeWorker.targetWidth, pyInt] <;> decide
example : ResizeWorker.sleepTime ⟨⟨1, 1, 0⟩, 1/20, .bicubic⟩ = 5 := by
  norm_num [ResizeWorker.sleepTime, pyInt] <;> decide
example : ResizeWorker.sleepTime ⟨⟨1, 1, 0⟩, 3, .bicubic⟩ = 15 := by
  norm_num [ResizeWorker.sleepTime, pyInt] <;> decide
example : pyInt ((1 : ℚ) / 10 * 100) = 10 := by norm_num [pyInt]
example : pyInt ((7 : ℚ) / 10 * 100) = 70 := by norm_num [pyInt]

/-! ## The controller (`ImageScaler`) state and its UI actions -/

/-- The two entries of `self.languages = ['en', 'ru']`. -/
inductive Lang
  | en
  | ru
deriving DecidableEq, Repr

/-- `self.languages`. -/
def languages : List Lang := [.en, .ru]

/-- The mutable controller fields of `ImageScaler` that the resampling
pipeline reads or writes: current language, scale factor, original image,
last installed resized image, whether a worker thread is running
(`self.worker is not None and self.worker.isRunning()`), and the current
index of the interpolation combo box. -/
structure ScalerState where
  lang : Lang
  scale : ℚ
  img_pil_original : Option PILImage
  img_resized : Option PILImage
  workerBusy : Bool
  comboInterpIndex : Nat
deriving DecidableEq, Repr

/-- Field values set in `ImageScaler.__init__`: scale 1.0, no images,
no worker, combo index 2 (Bicubic), English texts. -/
def initialState : ScalerState :=
  { lang := .en, scale := 1, img_pil_original := none, img_resized := none,
    workerBusy := false, comboInterpIndex := 2 }

/-- The enabled flags computed by `ImageScaler.update_buttons_state`. -/
structure ButtonsState where
  downscaleEnabled : Bool
  upscaleEnabled : Bool
  saveEnabled : Bool
  loadEnabled : Bool
deriving DecidableEq, Repr

namespace ImageScaler

/-- `ImageScaler.update_buttons_state`: pure recomputation of the four
enabled flags from the controller state. -/
def update_buttons_state (s : ScalerState) : ButtonsState :=
  { downscaleEnabled := s.img_pil_original.isSome && decide ((0.05 : ℚ) < s.scale) && !s.workerBusy
    upscaleEnabled := s.img_pil_original.isSome && decide (s.scale < (3 : ℚ)) && !s.workerBusy
    saveEnabled := s.img_resized.isSome && !s.workerBusy
    loadEnabled := !s.workerBusy }

/-- `ImageScaler.start_interpolation`: terminates any running worker, then
creates and starts a `ResizeWorker` from the current original image, scale
and combo-box method (`methods.get(idx, Image.BICUBIC)`), leaving the
controller busy.  Every caller in the source reaches this method only with
an image loaded; the `none` branch mirrors that no worker can be built
without an image. -/
def start_interpolation (s : ScalerState) : ScalerState × Option ResizeWorker :=
  match s.img_pil_original with
  | some img =>
      ({ s with workerBusy := true },
        some ⟨img, s.scale, methodsGet s.comboInterpIndex⟩)
  | none => (s, none)

/-- `ImageScaler.load_image_from_path`: `decoded` is the outcome of the
external `Image.open(file_path).convert("RGBA")` call (`none` models the
exception branch, which only shows a message box).  On success the original
image is replaced, the scale reset to 1.0, and a resize started. -/
def load_image_from_path (s : ScalerState) (decoded : Option PILImage) :
    ScalerState × Option ResizeWorker :=
  match decoded with
  | some img =>
      start_interpolation { s with img_pil_original := some img, scale := 1 }
  | none => (s, none)

/-- `ImageScaler.downscale`: message box and no-op without an image; no-op
at or below 0.05; otherwise `self.scale = max(0.05, self.scale - 0.05)`
and a new interpolation is started. -/
def downscale (s : ScalerState) : ScalerState × Option ResizeWorker :=
  match s.img_pil_original with
  | none => (s, none)
  | some _ =>
      if s.scale ≤ (0.05 : ℚ) then (s, none)
      else start_interpolation { s with scale := max (0.05 : ℚ) (s.scale - 0.05) }

/-- `ImageScaler.upscale`: message box and no-op without an image; no-op at
or above 3.0; otherwise `self.scale = min(3.0, self.scale + 0.05)` and a
new interpolation is started. -/
def upscale (s : ScalerState) : ScalerState × Option ResizeWorker :=
  match s.img_pil_original with
  | none => (s, none)
  | some _ =>
      if (3 : ℚ) ≤ s.scale then (s, none)
      else start_interpolation { s with scale := min (3 : ℚ) (s.scale + 0.05) }

/-- `ImageScaler.update_ui_texts`: rewrites all visible texts, and rebuilds
the interpolation combo box with `blockSignals(True)`, `clear()`,
`addItems(...)`, `setCurrentIndex(2)`, `blockSignals(False)` — so the
index ends at 2 and no `currentIndexChanged` signal is emitted. -/
def update_ui_texts (s : ScalerState) : ScalerState :=
  { s with comboInterpIndex := 2 }

/-- `ImageScaler.switch_language`: sets `self.lang = self.languages[idx]`,
then runs `update_ui_texts` and `update_buttons_state`.  No interpolation
is started anywhere on this path (the combo-box reset happens with its
signals blocked), which the `none` component records. -/
def switch_language (s : ScalerState) (idx : Fin languages.length) :
    ScalerState × Option ResizeWorker :=
  (update_ui_texts { s with lang := languages.get idx }, none)

/-- Outcome of `ImageScaler.save_as` as observable by the user. -/
inductive SaveResult
  | nothingToSave
  | dialogCancelled
  | saved (fmt : String)
  | saveFailed
deriving DecidableEq, Repr

/-- `ImageScaler.save_as`: warns `save_none` and returns when no resized
image exists; returns silently when the file dialog is cancelled
(`dialogExt = none`); otherwise picks the format from the lower-cased
extension (`.jpg`/`.jpeg` → JPEG, `.bmp` → BMP, `.gif` → GIF, anything
else → PNG) and calls the external `PIL.Image.save` (whose success is the
input `encodeOk`).  The returned Bool records whether a file write was
attempted. -/
def save_as (s : ScalerState) (dialogExt : Option String) (encodeOk : Bool) :
    ScalerState × SaveResult × Bool :=
  match s.img_resized with
  | none => (s, .nothingToSave, false)
  | some _ =>
      match dialogExt with
      | none => (s, .dialogCancelled, false)
      | some ext =>
          let fmt :=
            if ext = ".jpg" ∨ ext = ".jpeg" then "JPEG"
            else if ext = ".bmp" then "BMP"
            else if ext = ".gif" then "GIF"
            else "PNG"
          if encodeOk then (s, .saved fmt, true) else (s, .saveFailed, true)

end ImageScaler

/-! ## Helper lemmas about the controller actions -/

/-- `start_interpolation` never changes the scale field. -/
theorem start_interpolation_scale (s : ScalerState) :
    (ImageScaler.start_interpolation s).1.scale = s.scale := by
  obtain ⟨l, sc, io, ir, b, ci⟩ := s
  cases io <;> rfl

/-- `start_interpolation` never changes the original image field. -/
theorem start_interpolation_original (s : ScalerState) :
    (ImageScaler.start_interpolation s).1.img_pil_original = s.img_pil_original := by
  obtain ⟨l, sc, io, ir, b, ci⟩ := s
  cases io <;> rfl

/-- Scale bounds are preserved by one press of the Decrease button. -/
theorem downscale_scale_bounds (s : ScalerState)
    (h1 : (0.05 : ℚ) ≤ s.scale) (h2 : s.scale ≤ 3) :
    (0.05 : ℚ) ≤ (ImageScaler.downscale s).1.scale ∧
      (ImageScaler.downscale s).1.scale ≤ 3 := by
  unfold ImageScaler.downscale
  cases himg : s.img_pil_original with
  | none => exact ⟨h1, h2⟩
  | some img =>
      by_cases hle : s.scale ≤ (0.05 : ℚ)
      · simp only [hle, if_pos]
        exact ⟨h1, h2⟩
      · simp only [hle, if_neg, not_false_iff, start_interpolation_scale]
        constructor
        · exact le_max_left _ _
        · have ha : (0.05 : ℚ) ≤ 3 := by norm_num
          have hb : s.scale - 0.05 ≤ 3 := by linarith
          exact max_le ha hb

/-- Scale bounds are preserved by one press of the Increase button. -/
theorem upscale_scale_bounds (s : ScalerState)
    (h1 : (0.05 : ℚ) ≤ s.scale) (h2 : s.scale ≤ 3) :
    (0.05 : ℚ) ≤ (ImageScaler.upscale s).1.scale ∧
      (ImageScaler.upscale s).1.scale ≤ 3 := by
  unfold ImageScaler.upscale
  cases himg : s.img_pil_original with
  | none => exact ⟨h1, h2⟩
  | some img =>
      by_cases hge : (3 : ℚ) ≤ s.scale
      · simp only [hge, if_pos]
        exact ⟨h1, h2⟩
      · simp only [hge, if_neg, not_false_iff, start_interpolation_scale]
        constructor
        · have ha : (0.05 : ℚ) ≤ 3 := by norm_num
          have hb : (0.05 : ℚ) ≤ s.scale + 0.05 := by linarith
          exact le_min ha hb
        · exact min_le_left _ _

/-- A state whose scale is exactly 3 is a fixed point of `upscale`. -/
theorem upscale_fixed_at_top (s : ScalerState) (h : s.scale = 3) :
    ImageScaler.upscale s = (s, none) := by
  unfold ImageScaler.upscale
  cases s.img_pil_original with
  | none => rfl
  | some img =>
      have : (3 : ℚ) ≤ s.scale := h.ge
      simp [this]

/-- Apply a sequence of scale-change button presses (`true` = Increase,
`false` = Decrease) to the controller state. -/
def applyScaleOps (s : ScalerState) : List Bool → ScalerState
  | [] => s
  | b :: ops =>
      applyScaleOps
        (if b then (ImageScaler.upscale s).1 else (ImageScaler.downscale s).1) ops

/-! ## Claim C2 -/

/-- Modelled from the spec: the spec's `round(w*scale)` (round half away
from zero on nonnegative inputs); the source computes
`int(w*scale)`, which truncates, instead. -/
def specRound (q : ℚ) : ℤ := ⌊q + 1 / 2⌋

/-- C2 counterexample: for a 2×2 source at the in-range scale 0.75 the
code truncates `2 * 0.75 = 1.5` to width 1, while the claimed formula
`max(1, round(w*scale))` gives 2. -/
theorem C2_round_counterexample :
    ((0.05 : ℚ) ≤ 3 / 4 ∧ (3 / 4 : ℚ) ≤ 3) ∧
    ResizeWorker.targetWidth ⟨⟨2, 2, 0⟩, 3 / 4, .bicubic⟩ = 1 ∧
    max 1 (specRound ((2 : ℚ) * (3 / 4))).toNat = 2 ∧ (1 : ℕ) ≠ 2 := by
  have hs : specRound ((2 : ℚ) * (3 / 4)) = 2 := by norm_num [specRound]
  refine ⟨⟨by norm_num, by norm_num⟩, ?_, ?_, by decide⟩
  · norm_num [ResizeWorker.targetWidth, pyInt]
  · rw [hs]; decide

/-- C2 (amended): for every source bitmap and every nonnegative scale, the
worker's output dimensions are `max(1, int(w*scale))` by
`max(1, int(h*scale))` where `int` truncates (floor on nonnegative
values) — not `round` — and are therefore never zero; the output is the
image carried by the final `finished` emission of the run. -/
theorem C2_output_dims_truncated (w : ResizeWorker) (h0 : 0 ≤ w.scale) :
    w.output.width = max 1 ⌊(w.pil_image.width : ℚ) * w.scale⌋.toNat ∧
    w.output.height = max 1 ⌊(w.pil_image.height : ℚ) * w.scale⌋.toNat ∧
    1 ≤ w.output.width ∧ 1 ≤ w.output.height ∧
    w.run.getLast? = some (.finish w.output) := by
  have hw : pyInt ((w.pil_image.width : ℚ) * w.scale)
      = ⌊(w.pil_image.width : ℚ) * w.scale⌋ := by
    unfold pyInt
    rw [if_pos (mul_nonneg (Nat.cast_nonneg _) h0)]
  have hh : pyInt ((w.pil_image.height : ℚ) * w.scale)
      = ⌊(w.pil_image.height : ℚ) * w.scale⌋ := by
    unfold pyInt
    rw [if_pos (mul_nonneg (Nat.cast_nonneg _) h0)]
  refine ⟨?_, ?_, ?_, ?_, ?_⟩
  · simp [ResizeWorker.output, pilResize, ResizeWorker.targetWidth, hw]
  · simp [ResizeWorker.output, pilResize, ResizeWorker.targetHeight, hh]
  · exact le_max_left _ _
  · exact le_max_left _ _
  · simp [ResizeWorker.run]

/-- Witness for C2 (amended) on a 100×100 source at scale 0.25. -/
theorem C2_output_dims_truncated_witness :
    (0 : ℚ) ≤ 1 / 4 ∧
    ((ResizeWorker.output ⟨⟨100, 100, 0⟩, 1 / 4, .bicubic⟩).width
        = max 1 ⌊((100 : ℕ) : ℚ) * (1 / 4 : ℚ)⌋.toNat ∧
      (ResizeWorker.output ⟨⟨100, 100, 0⟩, 1 / 4, .bicubic⟩).height
        = max 1 ⌊((100 : ℕ) : ℚ) * (1 / 4 : ℚ)⌋.toNat ∧
      1 ≤ (ResizeWorker.output ⟨⟨100, 100, 0⟩, 1 / 4, .bicubic⟩).width ∧
      1 ≤ (ResizeWorker.output ⟨⟨100, 100, 0⟩, 1 / 4, .bicubic⟩).height ∧
      (ResizeWorker.run ⟨⟨100, 100, 0⟩, 1 / 4, .bicubic⟩).getLast?
        = some (.finish (ResizeWorker.output ⟨⟨100, 100, 0⟩, 1 / 4, .bicubic⟩))) :=
  ⟨by norm_num, C2_output_dims_truncated ⟨⟨100, 100, 0⟩, 1 / 4, .bicubic⟩ (by norm_num)⟩

/-! ## Claim C5 -/

/-- A controller state as reached after loading an image, completing a
resize, selecting the Nearest filter (combo index 0) and halving the
scale: used to exhibit what a further load does and does not reset. -/
def nearestLoadedState : ScalerState :=
  { lang := .en, scale := 1 / 2, img_pil_original := some ⟨100, 100, 0⟩,
    img_resized := some ⟨50, 50, 7⟩, workerBusy := false, comboInterpIndex := 0 }

/-- C5 counterexample: a successful load neither resets the filter
selector to Bicubic nor clears the displayed bitmap — from a state with
Nearest selected and a displayed result, the combo index stays 0 (whose
method is not BICUBIC) and `img_resized` keeps its old image. -/
theorem C5_load_counterexample :
    ((ImageScaler.load_image_from_path nearestLoadedState
        (some ⟨30, 40, 1⟩)).1.comboInterpIndex = 0 ∧ methodsGet 0 ≠ .bicubic) ∧
    (ImageScaler.load_image_from_path nearestLoadedState
        (some ⟨30, 40, 1⟩)).1.img_resized = some ⟨50, 50, 7⟩ :=
  ⟨⟨rfl, by decide⟩, rfl⟩

/-- C5 (amended): a successful load installs the new original image, sets
the scale to 1.0 and immediately starts a resize worker for the new image
at scale 1.0 with the currently selected method — but it leaves the filter
selection and the displayed bitmap unchanged. -/
theorem C5_load_resets_scale_only (s : ScalerState) (img : PILImage) :
    (ImageScaler.load_image_from_path s (some img)).1.scale = 1 ∧
    (ImageScaler.load_image_from_path s (some img)).1.img_pil_original = some img ∧
    (ImageScaler.load_image_from_path s (some img)).1.comboInterpIndex
      = s.comboInterpIndex ∧
    (ImageScaler.load_image_from_path s (some img)).1.img_resized = s.img_resized ∧
    (ImageScaler.load_image_from_path s (some img)).1.workerBusy = true ∧
    (ImageScaler.load_image_from_path s (some img)).2
      = some ⟨img, 1, methodsGet s.comboInterpIndex⟩ := by
  simp [ImageScaler.load_image_from_path, ImageScaler.start_interpolation]

/-! ## Claim C6 -/

/-- C6: the scale stays within `[0.05, 3.00]` under any sequence of
scale-change operations; a press at the bound in its direction is a
complete no-op; and repeated Increase presses from 2.98 reach 3.00 after
one press and stay there forever. -/
theorem C6_scale_clamped :
    (∀ s : ScalerState, ∀ ops : List Bool,
      (0.05 : ℚ) ≤ s.scale → s.scale ≤ 3 →
      (0.05 : ℚ) ≤ (applyScaleOps s ops).scale ∧ (applyScaleOps s ops).scale ≤ 3) ∧
    (∀ s : ScalerState, s.scale ≤ (0.05 : ℚ) → ImageScaler.downscale s = (s, none)) ∧
    (∀ s : ScalerState, (3 : ℚ) ≤ s.scale → ImageScaler.upscale s = (s, none)) ∧
    (∀ s : ScalerState, s.img_pil_original.isSome = true → s.scale = 2.98 →
      ∀ n : ℕ, 1 ≤ n →
      ((fun t => (ImageScaler.upscale t).1)^[n] s).scale = 3) := by
  refine ⟨?_, ?_, ?_, ?_⟩
  · intro s ops
    induction ops generalizing s with
    | nil => exact fun h1 h2 => ⟨h1, h2⟩
    | cons b ops ih =>
        intro h1 h2
        cases b
        · exact ih _ (downscale_scale_bounds s h1 h2).1 (downscale_scale_bounds s h1 h2).2
        · exact ih _ (upscale_scale_bounds s h1 h2).1 (upscale_scale_bounds s h1 h2).2
  · intro s h
    unfold ImageScaler.downscale
    cases s.img_pil_original with
    | none => rfl
    | some img => simp [h]
  · intro s h
    unfold ImageScaler.upscale
    cases s.img_pil_original with
    | none => rfl
    | some img =>
        have : (3 : ℚ) ≤ s.scale := by norm_num; linarith
        simp [this]
  · intro s himg h n hn
    obtain ⟨m, rfl⟩ : ∃ m, n = m + 1 := ⟨n - 1, by omega⟩
    rw [Function.iterate_succ_apply]
    have hstep : (ImageScaler.upscale s).1.scale = 3 := by
      unfold ImageScaler.upscale
      cases hor : s.img_pil_original with
      | none => rw [hor] at himg; exact absurd himg (by simp)
      | some img =>
          have hlt : ¬ (3 : ℚ) ≤ s.scale := by rw [h]; norm_num
          simp only [hlt, if_neg, not_false_iff, start_interpolation_scale]
          rw [h]; norm_num
    have hfix : ∀ m : ℕ, ∀ t : ScalerState, t.scale = 3 →
        ((fun t => (ImageScaler.upscale t).1)^[m] t).scale = 3 := by
      intro m t ht
      have : (fun t => (ImageScaler.upscale t).1) t = t := by
        show (ImageScaler.upscale t).1 = t
        rw [upscale_fixed_at_top t ht]
      rw [Function.iterate_fixed this]
      exact ht
    exact hfix m _ hstep

/-- A controller state with a loaded image and scale 2.98, for exercising
the convergence clause of C6. -/
def state298 : ScalerState :=
  { lang := .en, scale := 2.98, img_pil_original := some ⟨100, 100, 0⟩,
    img_resized := none, workerBusy := false, comboInterpIndex := 2 }

/-- Witness for C6 at concrete states: bounds preserved from scale 0.5
under presses Decrease, Decrease, Increase; a state at the lower bound is
untouched by Decrease; a state at the upper bound is untouched by
Increase; five Increase presses from 2.98 end at exactly 3. -/
theorem C6_scale_clamped_witness :
    ((0.05 : ℚ) ≤ (applyScaleOps nearestLoadedState [false, false, true]).scale ∧
      (applyScaleOps nearestLoadedState [false, false, true]).scale ≤ 3) ∧
    ImageScaler.downscale { nearestLoadedState with scale := 0.05 }
      = ({ nearestLoadedState with scale := 0.05 }, none) ∧
    ImageScaler.upscale { nearestLoadedState with scale := 3 }
      = ({ nearestLoadedState with scale := 3 }, none) ∧
    ((fun t => (ImageScaler.upscale t).1)^[5] state298).scale = 3 :=
  ⟨C6_scale_clamped.1 nearestLoadedState [false, false, true]
      (by norm_num [nearestLoadedState]) (by norm_num [nearestLoadedState]),
    C6_scale_clamped.2.1 _ (by norm_num [nearestLoadedState]),
    C6_scale_clamped.2.2.1 _ (by norm_num [nearestLoadedState]),
    C6_scale_clamped.2.2.2 state298 rfl rfl 5 (by norm_num)⟩

/-! ## Claim C8 -/

/-- C8: the enabled flags computed by `update_buttons_state` are a pure
function of the controller state, and each disabled condition is exactly
the claimed one: scale-up disabled iff scale ≥ 3.0 or no image or busy;
scale-down disabled iff scale ≤ 0.05 or no image or busy; save disabled
iff no completed result or busy. -/
theorem C8_buttons_from_state (s : ScalerState) :
    ((ImageScaler.update_buttons_state s).upscaleEnabled = false ↔
      ((3 : ℚ) ≤ s.scale ∨ s.img_pil_original = none ∨ s.workerBusy = true)) ∧
    ((ImageScaler.update_buttons_state s).downscaleEnabled = false ↔
      (s.scale ≤ (0.05 : ℚ) ∨ s.img_pil_original = none ∨ s.workerBusy = true)) ∧
    ((ImageScaler.update_buttons_state s).saveEnabled = false ↔
      (s.img_resized = none ∨ s.workerBusy = true)) := by
  obtain ⟨l, sc, io, ir, b, ci⟩ := s
  cases io <;> cases ir <;> cases b <;>
    simp [ImageScaler.update_buttons_state, not_lt] <;> tauto

/-! ## Claim C9 -/

/-- C9: invoking save with no completed resize result is a warning-only
no-op: the user gets the "nothing to save" signal, no file write is
attempted and the controller state is unchanged, whatever the dialog or
encoder would have done. -/
theorem C9_save_without_result (s : ScalerState) (h : s.img_resized = none)
    (dialogExt : Option String) (encodeOk : Bool) :
    ImageScaler.save_as s dialogExt encodeOk
      = (s, ImageScaler.SaveResult.nothingToSave, false) := by
  unfold ImageScaler.save_as
  rw [h]

/-- Witness for C9 in the freshly initialised state. -/
theorem C9_save_without_result_witness :
    initialState.img_resized = none ∧
    ImageScaler.save_as initialState (some ".png") true
      = (initialState, ImageScaler.SaveResult.nothingToSave, false) :=
  ⟨rfl, C9_save_without_result initialState rfl (some ".png") true⟩

/-! ## Claim C10 -/

/-- C10: switching the UI language rebuilds the interpolation combo box
and leaves it at index 2 (Bicubic) with signals blocked, so no new resize
task is started, whatever filter was selected before; any later
interpolation will therefore use the Bicubic method. -/
theorem C10_language_switch_resets_filter (s : ScalerState)
    (idx : Fin languages.length) :
    (ImageScaler.switch_language s idx).1.comboInterpIndex = 2 ∧
    methodsGet (ImageScaler.switch_language s idx).1.comboInterpIndex
      = InterpMethod.bicubic ∧
    (ImageScaler.switch_language s idx).2 = none :=
  ⟨rfl, rfl, rfl⟩

/-! ## Event-level semantics of supersession and queued signal delivery

`start_interpolation` terminates a still-running worker before starting a
new one, and the worker's `finished` signal crosses threads through Qt's
event queue (a queued connection): it is emitted by the worker thread and
delivered later, in emission order, to `on_interpolation_finished` on the
UI thread, which installs the carried image into `img_resized`
unconditionally.  The states and events below embed exactly this
machinery. -/

/-- A completion value crossing from the worker thread to the UI thread:
the ordinal of the `start_interpolation` call that created the worker,
and the resized image its `finished` signal carries. -/
structure Completion where
  id : ℕ
  result : PILImage
deriving DecidableEq, Repr

/-- The pipeline state: `latestId` counts `start_interpolation` calls,
`latestWorker` is the worker created by the most recent one, `running`
is the completion the live worker thread will emit if it finishes,
`queue` is the Qt event queue of emitted-but-undelivered `finished`
signals in emission order, `displayed` is `img_resized` together with the
id of the request that produced it, and `emitted` is the log of every
completion ever emitted. -/
structure SysState where
  latestId : ℕ
  latestWorker : Option ResizeWorker
  running : Option Completion
  queue : List Completion
  displayed : Option Completion
  emitted : List Completion
deriving DecidableEq, Repr

/-- The completion the most recent request will produce (if any). -/
def latestCompletion (s : SysState) : Option Completion :=
  s.latestWorker.map fun w => ⟨s.latestId, w.output⟩

/-- The atomic events of the pipeline:
* `submit w` — a UI action calls `start_interpolation`, which first
  terminates and joins any running worker (`self.worker.terminate();
  self.worker.wait()`) — a terminated worker emits nothing further — and
  then starts the fresh worker `w`;
* `emitFinished` — the running worker reaches the end of `run` and emits
  its `finished` signal, which Qt appends to the event queue;
* `fail` — the running worker disappears without emitting anything and
  without a successor being started.  No code path of this program
  produces this transition on its own: supersession terminates and
  immediately resubmits inside `submit`, and an unhandled exception in
  `run` does not end the thread benignly but aborts the whole process
  (see `RunOutcome` below).  The event is kept as an over-approximation,
  so the delivery theorems also cover a worker that silently vanishes;
* `deliver` — the event loop hands the oldest queued `finished` signal
  to `on_interpolation_finished`, which installs the carried image into
  `img_resized` without any request-identity check. -/
inductive SysEvent
  | submit (w : ResizeWorker)
  | emitFinished
  | fail
  | deliver
deriving DecidableEq, Repr

/-- One transition of the pipeline. -/
def sysStep (s : SysState) : SysEvent → SysState
  | .submit w =>
      { s with
          latestId := s.latestId + 1
          latestWorker := some w
          running := some ⟨s.latestId + 1, w.output⟩ }
  | .emitFinished =>
      match s.running with
      | some c =>
          { s with
              running := none
              queue := s.queue ++ [c]
              emitted := s.emitted ++ [c] }
      | none => s
  | .fail => { s with running := none }
  | .deliver =>
      match s.queue with
      | c :: rest => { s with queue := rest, displayed := some c }
      | [] => s

/-- The pipeline before any request: nothing submitted, running, queued,
displayed or emitted. -/
def sysInit : SysState := ⟨0, none, none, [], none, []⟩

/-- Run the pipeline on a sequence of events from the initial state. -/
def sysExec (evs : List SysEvent) : SysState := evs.foldl sysStep sysInit

/-- The inductive invariant of the pipeline: queued ids are strictly
increasing and bounded by `latestId`; a live worker is always the latest
request's and anything older in flight has a strictly smaller id; once
the latest request's completion has been emitted it is either still the
tail of the queue or already installed; and nothing is ever queued or
displayed that was not emitted. -/
structure SysInv (s : SysState) : Prop where
  queue_le : ∀ c ∈ s.queue, c.id ≤ s.latestId
  queue_sorted : s.queue.Pairwise fun a b => a.id < b.id
  run_latest : ∀ c, s.running = some c → latestCompletion s = some c
  run_queue : s.running.isSome = true → ∀ c ∈ s.queue, c.id < s.latestId
  run_emitted : s.running.isSome = true → ∀ c ∈ s.emitted, c.id < s.latestId
  emitted_le : ∀ c ∈ s.emitted, c.id ≤ s.latestId
  latest_placed : ∀ cl, latestCompletion s = some cl →
    (∃ c ∈ s.emitted, c.id = s.latestId) →
    (∃ pre, s.queue = pre ++ [cl] ∧ ∀ c ∈ pre, c.id < s.latestId) ∨
      (s.queue = [] ∧ s.displayed = some cl)
  disp_emitted : ∀ c, s.displayed = some c → c ∈ s.emitted
  queue_emitted : ∀ c ∈ s.queue, c ∈ s.emitted

/-- The initial state satisfies the invariant. -/
theorem sysInv_init : SysInv sysInit := by
  constructor <;> simp [sysInit, latestCompletion]

/-- The invariant is preserved by every pipeline transition. -/
theorem sysInv_step (s : SysState) (e : SysEvent) (h : SysInv s) :
    SysInv (sysStep s e) := by
  obtain ⟨q_le, q_sorted, r_latest, r_queue, r_emitted, e_le, placed, d_em, q_em⟩ := h
  cases e with
  | submit w =>
      refine ⟨?_, ?_, ?_, ?_, ?_, ?_, ?_, ?_, ?_⟩
      · intro c hc
        exact Nat.le_succ_of_le (q_le c hc)
      · exact q_sorted
      · intro c hc
        have hc' : (⟨s.latestId + 1, w.output⟩ : Completion) = c := Option.some.inj hc
        subst hc'
        rfl
      · intro _ c hc
        exact Nat.lt_succ_of_le (q_le c hc)
      · intro _ c hc
        exact Nat.lt_succ_of_le (e_le c hc)
      · intro c hc
        exact Nat.le_succ_of_le (e_le c hc)
      · intro cl _ hex
        obtain ⟨c, hc, hid⟩ := hex
        have hle : c.id ≤ s.latestId := e_le c hc
        have hid' : c.id = s.latestId + 1 := hid
        omega
      · exact d_em
      · exact q_em
  | emitFinished =>
      cases hrun : s.running with
      | none =>
          simp only [sysStep, hrun]
          exact ⟨q_le, q_sorted, r_latest, r_queue, r_emitted, e_le, placed, d_em, q_em⟩
      | some c =>
          have hlc : latestCompletion s = some c := r_latest c hrun
          have hcid : c.id = s.latestId := by
            unfold latestCompletion at hlc
            cases hw : s.latestWorker with
            | none => rw [hw] at hlc; simp at hlc
            | some w =>
                rw [hw] at hlc
                simp only [Option.map_some', Option.some.injEq] at hlc
                rw [← hlc]
          have hsome : s.running.isSome = true := by rw [hrun]; rfl
          simp only [sysStep, hrun]
          refine ⟨?_, ?_, ?_, ?_, ?_, ?_, ?_, ?_, ?_⟩
          · intro a ha
            rcases List.mem_append.mp ha with h1 | h1
            · exact q_le a h1
            · have ha' : a = c := by simpa using h1
              rw [ha', hcid]
          · refine List.pairwise_append.mpr ⟨q_sorted, List.pairwise_singleton _ _, ?_⟩
            intro a ha b hb
            have hb' : b = c := by simpa using hb
            rw [hb', hcid]
            exact r_queue hsome a ha
          · intro a ha
            exact absurd ha (by simp)
          · intro hh
            exact absurd hh (by simp)
          · intro hh
            exact absurd hh (by simp)
          · intro a ha
            rcases List.mem_append.mp ha with h1 | h1
            · exact e_le a h1
            · have ha' : a = c := by simpa using h1
              rw [ha', hcid]
          · intro cl hcl hex
            have hcl' : latestCompletion s = some cl := hcl
            have hceq : c = cl := Option.some.inj (hlc.symm.trans hcl')
            subst hceq
            refine Or.inl ⟨s.queue, rfl, ?_⟩
            exact r_queue hsome
          · intro a ha
            have ha' : s.displayed = some a := ha
            exact List.mem_append_left _ (d_em a ha')
          · intro a ha
            rcases List.mem_append.mp ha with h1 | h1
            · exact List.mem_append_left _ (q_em a h1)
            · exact List.mem_append_right _ h1
  | fail =>
      refine ⟨q_le, q_sorted, ?_, ?_, ?_, e_le, ?_, d_em, q_em⟩
      · intro a ha
        exact absurd ha (by simp [sysStep])
      · intro hh
        exact absurd hh (by simp [sysStep])
      · intro hh
        exact absurd hh (by simp [sysStep])
      · intro cl hcl hex
        have hcl' : latestCompletion s = some cl := hcl
        have hex' : ∃ x ∈ s.emitted, x.id = s.latestId := hex
        cases hrun : s.running with
        | none => exact placed cl hcl' hex'
        | some c =>
            obtain ⟨x, hxm, hxid⟩ := hex'
            have hlt : x.id < s.latestId := r_emitted (by rw [hrun]; rfl) x hxm
            omega
  | deliver =>
      cases hq : s.queue with
      | nil =>
          simp only [sysStep, hq]
          exact ⟨q_le, q_sorted, r_latest, r_queue, r_emitted, e_le, placed, d_em, q_em⟩
      | cons c rest =>
          simp only [sysStep, hq]
          refine ⟨?_, ?_, ?_, ?_, ?_, ?_, ?_, ?_, ?_⟩
          · intro a ha
            exact q_le a (by rw [hq]; exact List.mem_cons_of_mem c ha)
          · have hp : (c :: rest).Pairwise fun a b => a.id < b.id := by
              rw [← hq]; exact q_sorted
            exact hp.of_cons
          · intro a ha
            have ha' : s.running = some a := ha
            exact r_latest a ha'
          · intro hh a ha
            have hh' : s.running.isSome = true := hh
            exact r_queue hh' a (by rw [hq]; exact List.mem_cons_of_mem c ha)
          · intro hh a ha
            have hh' : s.running.isSome = true := hh
            exact r_emitted hh' a ha
          · intro a ha
            exact e_le a ha
          · intro cl hcl hex
            have hcl' : latestCompletion s = some cl := hcl
            have hex' : ∃ x ∈ s.emitted, x.id = s.latestId := hex
            rcases placed cl hcl' hex' with ⟨pre, hpre, hlt⟩ | ⟨hqe, _⟩
            · rw [hq] at hpre
              cases pre with
              | nil =>
                  simp only [List.nil_append, List.cons.injEq] at hpre
                  obtain ⟨h1, h2⟩ := hpre
                  exact Or.inr ⟨h2, congrArg some h1⟩
              | cons p ps =>
                  rw [List.cons_append] at hpre
                  injection hpre with h1 h2
                  refine Or.inl ⟨ps, h2, ?_⟩
                  intro a ha
                  exact hlt a (List.mem_cons_of_mem p ha)
            · rw [hq] at hqe
              exact absurd hqe (by simp)
          · intro a ha
            have ha' : c = a := Option.some.inj ha
            subst ha'
            exact q_em c (by rw [hq]; exact List.mem_cons_self c rest)
          · intro a ha
            exact q_em a (by rw [hq]; exact List.mem_cons_of_mem c ha)

/-- The invariant holds in every reachable pipeline state. -/
theorem sysInv_exec (evs : List SysEvent) : SysInv (sysExec evs) := by
  suffices hgen : ∀ (l : List SysEvent) (s : SysState), SysInv s →
      SysInv (l.foldl sysStep s) by
    exact hgen evs sysInit sysInv_init
  intro l
  induction l with
  | nil => exact fun s hs => hs
  | cons e l ih => exact fun s hs => ih _ (sysInv_step s e hs)

/-! ## Claim C1 -/

/-- The 100×100 source image used in the concrete supersession traces. -/
def srcImage : PILImage := ⟨100, 100, 0⟩

/-- The slow request R1: scale 3.0, Bicubic. -/
def workerR1 : ResizeWorker := ⟨srcImage, 3, .bicubic⟩

/-- The fast request R2: scale 1.0, Nearest. -/
def workerR2 : ResizeWorker := ⟨srcImage, 1, .nearest⟩

/-- C1 counterexample: there is no request-identity check at install time.
In the trace where R1 emits its completion just before R2 is submitted,
the queued stale completion is delivered after R2 became the latest
request, and `on_interpolation_finished` installs it: the displayed slot
holds R1's bitmap (id 1) although the most recently submitted request is
R2 (id 2) and the two results differ. -/
theorem C1_stale_install_counterexample :
    (sysExec [.submit workerR1, .emitFinished, .submit workerR2,
        .deliver]).displayed = some ⟨1, workerR1.output⟩ ∧
    (sysExec [.submit workerR1, .emitFinished, .submit workerR2,
        .deliver]).latestId = 2 ∧
    workerR1.output ≠ workerR2.output := by
  refine ⟨rfl, rfl, ?_⟩
  have h1 : workerR1.output.width = 300 := by
    norm_num [workerR1, srcImage, ResizeWorker.output, pilResize,
      ResizeWorker.targetWidth, pyInt] <;> decide
  have h2 : workerR2.output.width = 100 := by
    norm_num [workerR2, srcImage, ResizeWorker.output, pilResize,
      ResizeWorker.targetWidth, pyInt] <;> decide
  intro hc
  rw [hc, h2] at h1
  omega

/-- C1 (amended): the finally displayed bitmap is the latest request's.
In every reachable pipeline state in which the event queue has drained
and the most recent request's worker has emitted its completion, the
displayed slot holds exactly that latest request's output — not because
of an id check at install time (there is none, see the counterexample)
but because a superseded worker is terminated before the next one starts
and queued completions are delivered in emission order, so the latest
completion is delivered last. -/
theorem C1_latest_result_displayed (evs : List SysEvent) (w : ResizeWorker)
    (hw : (sysExec evs).latestWorker = some w)
    (hq : (sysExec evs).queue = [])
    (hem : ∃ c ∈ (sysExec evs).emitted, c.id = (sysExec evs).latestId) :
    (sysExec evs).displayed = some ⟨(sysExec evs).latestId, w.output⟩ := by
  have hinv := sysInv_exec evs
  have hcl : latestCompletion (sysExec evs)
      = some ⟨(sysExec evs).latestId, w.output⟩ := by
    unfold latestCompletion
    rw [hw]
    rfl
  rcases hinv.latest_placed _ hcl hem with ⟨pre, hpre, _⟩ | ⟨_, hd⟩
  · rw [hq] at hpre
    exact absurd hpre.symm (by simp)
  · exact hd

/-- Witness for C1 (amended): the full supersession trace — R1 submitted,
R1 emits, R2 submitted, R2 emits, both queued completions delivered in
order — ends with R2's bitmap displayed. -/
theorem C1_latest_result_displayed_witness :
    (sysExec [.submit workerR1, .emitFinished, .submit workerR2,
        .emitFinished, .deliver, .deliver]).displayed
      = some ⟨2, workerR2.output⟩ := by
  have he : (sysExec [.submit workerR1, .emitFinished, .submit workerR2,
      .emitFinished, .deliver, .deliver]).emitted
      = [⟨1, workerR1.output⟩, ⟨2, workerR2.output⟩] := rfl
  have hmem : (⟨2, workerR2.output⟩ : Completion) ∈
      (sysExec [.submit workerR1, .emitFinished, .submit workerR2,
        .emitFinished, .deliver, .deliver]).emitted := by
    rw [he]
    simp
  have h := C1_latest_result_displayed
    [.submit workerR1, .emitFinished, .submit workerR2, .emitFinished,
      .deliver, .deliver] workerR2 rfl rfl
    ⟨⟨2, workerR2.output⟩, hmem, rfl⟩
  exact h

/-! ## Claim C3 -/

/-- C3 counterexample: the claimed cooperative mechanism does not exist.
`run` never reads a cancellation flag, so a cancel request visible from
tick 0 — before every progress tick and before the final compute
checkpoint — changes nothing: the trace still ends with the `finished`
emission and the completion callback is invoked. -/
theorem C3_no_cooperative_flag_counterexample :
    ResizeWorker.runWithCancelRequest workerR2 0 = workerR2.run ∧
    (ResizeWorker.runWithCancelRequest workerR2 0).getLast?
      = some (.finish workerR2.output) := by
  refine ⟨rfl, ?_⟩
  simp [ResizeWorker.runWithCancelRequest, ResizeWorker.run]

/-- C3 (amended): cancellation in this program is forced thread
termination (`terminate(); wait()` on supersession), not a cooperative
flag: the worker's trace is independent of when a cancel is requested and,
if the thread runs to the end, always finishes with the completion
emission; the guarantee that survives is that a worker terminated before
it emitted never has a completion delivered — everything queued, and
everything ever installed in the displayed slot, was actually emitted,
and terminating a worker adds nothing to the queue or the emission log. -/
theorem C3_terminated_worker_never_completes :
    (∀ (w : ResizeWorker) (t : ℕ),
      ResizeWorker.runWithCancelRequest w t = w.run ∧
      (ResizeWorker.runWithCancelRequest w t).getLast?
        = some (.finish w.output)) ∧
    (∀ evs : List SysEvent, ∀ c : Completion,
      (sysExec evs).displayed = some c → c ∈ (sysExec evs).emitted) ∧
    (∀ s : SysState, ∀ w : ResizeWorker,
      (sysStep s (.submit w)).emitted = s.emitted ∧
      (sysStep s (.submit w)).queue = s.queue ∧
      (sysStep s (.submit w)).displayed = s.displayed) := by
  refine ⟨?_, ?_, ?_⟩
  · intro w t
    refine ⟨rfl, ?_⟩
    simp [ResizeWorker.runWithCancelRequest, ResizeWorker.run]
  · intro evs c hc
    exact (sysInv_exec evs).disp_emitted c hc
  · intro s w
    exact ⟨rfl, rfl, rfl⟩

/-- Witness for C3 (amended): in the trace where R1 is terminated by R2's
submission before emitting, only R2's completion is ever emitted,
delivered and displayed; R1 contributes nothing. -/
theorem C3_terminated_worker_never_completes_witness :
    ResizeWorker.runWithCancelRequest workerR2 0 = workerR2.run ∧
    (⟨2, workerR2.output⟩ : Completion) ∈
      (sysExec [.submit workerR1, .submit workerR2, .emitFinished,
        .deliver]).emitted ∧
    (sysExec [.submit workerR1, .submit workerR2, .emitFinished,
        .deliver]).emitted = [⟨2, workerR2.output⟩] :=
  ⟨(C3_terminated_worker_never_completes.1 workerR2 0).1,
    C3_terminated_worker_never_completes.2.1
      [.submit workerR1, .submit workerR2, .emitFinished, .deliver]
      ⟨2, workerR2.output⟩ rfl,
    rfl⟩

/-! ## Claim C4 -/

/-- What becomes of one execution of `ResizeWorker.run` on the worker
thread.  `run` installs no exception handler and emits no failure
signal, and the PyQt6 runtime maps an unhandled Python exception inside
a reimplemented C++ virtual — `QThread.run` here — to `qFatal()`, which
aborts the whole process: no controller notification, no return to the
event loop, no survival of the UI state. -/
inductive RunOutcome
  | completed (trace : List WorkerEvent)
  | processAborted
deriving Repr

/-- Whether an outcome is the process abort. -/
def RunOutcome.isAborted : RunOutcome → Bool
  | .completed _ => false
  | .processAborted => true

/-- `ResizeWorker.run` with the outcome of the external
`self.pil_image.resize(...)` call made explicit: `resizeRaises` tells
whether that call raises (for example a MemoryError while allocating the
target bitmap).  On success the full trace is produced; on an exception
the ten progress ticks have already been emitted when the unhandled
exception reaches the PyQt runtime, and the process is aborted. -/
def ResizeWorker.runMay (w : ResizeWorker) (resizeRaises : Bool) : RunOutcome :=
  if resizeRaises then .processAborted else .completed w.run

/-- C4: the code has no failure path for the resize task.  `run` emits
`finished` only after a successful resize and catches nothing, so an
exception raised by the resize call at the failing input — the 100×100
source at scale 3.0 — yields the process abort, an outcome distinct
(`isAborted`) from every completed run: the process does crash, the
controller is never returned to Ready by any handler, and the claim's
graceful-failure behaviour (which matches the spec's error design) is
not implemented. -/
theorem C4_unhandled_exception_aborts :
    ResizeWorker.runMay workerR1 true = RunOutcome.processAborted ∧
    RunOutcome.isAborted (ResizeWorker.runMay workerR1 true) = true ∧
    (∀ w : ResizeWorker,
      ResizeWorker.runMay w false = RunOutcome.completed w.run ∧
      RunOutcome.isAborted (ResizeWorker.runMay w false) = false) :=
  ⟨rfl, rfl, fun _ => ⟨rfl, rfl⟩⟩

/-! ## Claim C7 -/

/-- C7 (amended): `run` is exactly ten ticks — each sleeping
`sleep_time = max(5, int(5·scale))` milliseconds and then emitting
`int(tick/10·100) = 10·tick` percent — followed by the single real
resample emitted as the trailing `finished`; the per-tick sleep is
nondecreasing in the scale but clamped below at 5 ms, hence not
proportional to the scale. -/
theorem C7_ten_ticks_then_compute :
    (∀ w : ResizeWorker, w.run =
      [.msleep w.sleepTime, .progress 10, .msleep w.sleepTime, .progress 20,
       .msleep w.sleepTime, .progress 30, .msleep w.sleepTime, .progress 40,
       .msleep w.sleepTime, .progress 50, .msleep w.sleepTime, .progress 60,
       .msleep w.sleepTime, .progress 70, .msleep w.sleepTime, .progress 80,
       .msleep w.sleepTime, .progress 90, .msleep w.sleepTime, .progress 100,
       .finish w.output]) ∧
    (∀ w v : ResizeWorker, 0 ≤ w.scale → w.scale ≤ v.scale →
      w.sleepTime ≤ v.sleepTime) := by
  constructor
  · intro w
    show ResizeWorker.run w = _
    rw [ResizeWorker.run]
    norm_num [List.range_succ, pyInt]
  · intro w v h0 hle
    unfold ResizeWorker.sleepTime
    have hw : pyInt (5 * w.scale) = ⌊(5 : ℚ) * w.scale⌋ := by
      unfold pyInt
      rw [if_pos (mul_nonneg (by norm_num) h0)]
    have hv : pyInt (5 * v.scale) = ⌊(5 : ℚ) * v.scale⌋ := by
      unfold pyInt
      rw [if_pos (mul_nonneg (by norm_num) (le_trans h0 hle))]
    rw [hw, hv]
    refine max_le_max (le_refl 5) ?_
    exact Int.toNat_le_toNat (Int.floor_le_floor (by linarith))

/-- Witness for C7: the tick structure at scale 3.0 (sleep 15 ms per
tick) and the sleep-time monotonicity between scales 1.0 and 3.0. -/
theorem C7_ten_ticks_then_compute_witness :
    workerR1.run =
      [.msleep workerR1.sleepTime, .progress 10,
       .msleep workerR1.sleepTime, .progress 20,
       .msleep workerR1.sleepTime, .progress 30,
       .msleep workerR1.sleepTime, .progress 40,
       .msleep workerR1.sleepTime, .progress 50,
       .msleep workerR1.sleepTime, .progress 60,
       .msleep workerR1.sleepTime, .progress 70,
       .msleep workerR1.sleepTime, .progress 80,
       .msleep workerR1.sleepTime, .progress 90,
       .msleep workerR1.sleepTime, .progress 100,
       .finish workerR1.output] ∧
    (0 : ℚ) ≤ workerR2.scale ∧ workerR2.scale ≤ workerR1.scale ∧
    workerR2.sleepTime ≤ workerR1.sleepTime :=
  ⟨C7_ten_ticks_then_compute.1 workerR1,
    by norm_num [workerR2],
    by norm_num [workerR1, workerR2],
    C7_ten_ticks_then_compute.2 workerR2 workerR1
      (by norm_num [workerR2]) (by norm_num [workerR1, workerR2])⟩

/-- C7 counterexample: the per-tick sleep is not proportional to the
scale — scales 0.05 and 1.0 differ by a factor of 20 yet both sleep 5 ms
per tick, so no proportionality constant exists. -/
theorem C7_sleep_not_proportional :
    ResizeWorker.sleepTime ⟨srcImage, 0.05, .bicubic⟩ = 5 ∧
    ResizeWorker.sleepTime ⟨srcImage, 1, .bicubic⟩ = 5 ∧
    ¬ ∃ c : ℚ,
      (ResizeWorker.sleepTime ⟨srcImage, 0.05, .bicubic⟩ : ℚ) = c * 0.05 ∧
      (ResizeWorker.sleepTime ⟨srcImage, 1, .bicubic⟩ : ℚ) = c * 1 := by
  have h1 : ResizeWorker.sleepTime ⟨srcImage, 0.05, .bicubic⟩ = 5 := by
    norm_num [ResizeWorker.sleepTime, pyInt]
  have h2 : ResizeWorker.sleepTime ⟨srcImage, 1, .bicubic⟩ = 5 := by
    norm_num [ResizeWorker.sleepTime, pyInt] <;> decide
  refine ⟨h1, h2, ?_⟩
  rintro ⟨c, hc1, hc2⟩
  rw [h1] at hc1
  rw [h2] at hc2
  push_cast at hc1 hc2
  have hcval : c = 5 := by linarith
  rw [hcval] at hc1
  norm_num at hc1
